import Mathlib

/-!
# Verification of the music-mood pipeline (feature transform, models, evaluation)

Shallow embedding of the repository's data-flow core:
* `src/etl/youtube.py` — idempotent-cache audio acquisition;
* `src/etl/transform.py` — `add_scaled_energy`, `clean_and_tidy`, `transform_features`;
* `src/analysis/supervised_model.py` — `train_classifier`;
* `src/analysis/unsupervised_model.py` — `run_kmeans_clustering`;
* `src/analysis/evaluate.py` — `evaluate_unsupervised`.

Tables (pandas DataFrames read from CSV) are modelled as lists of association
rows over a cell type `Val` (a rational number, a string, or the missing
sentinel `na`).  Column dtypes are modelled extensionally: a column is numeric
when every cell of it is a number or missing, which matches `read_csv`
inference on the frames the pipeline passes around.  Floating-point
arithmetic is idealised as exact rational arithmetic, except for the
`StandardScaler` z-score whose square root lives in `ℝ`.  External library
behaviour reached by the source (pandas `merge`, sklearn `KMeans` and
`train_test_split`) is modelled from the libraries' documented contracts;
`merge` is modelled for frames whose non-key columns are disjoint, which is
the pipeline's situation (pandas would suffix overlapping column names).
-/

/-- A cell of a DataFrame: a number, a string, or missing (`NaN`). -/
inductive Val where
  | num (q : ℚ)
  | str (s : String)
  | na
deriving DecidableEq

/-- Cell of a row at a column (first binding); an unbound column reads as
missing. -/
def Row.get : List (String × Val) → String → Val
  | [], _ => Val.na
  | (c, v) :: r, c' => if c = c' then v else Row.get r c'

/-- A row of a DataFrame: an association list from column name to cell. -/
abbrev Row := List (String × Val)

/-- Column assignment `df[c] = v` on one row: replaces any existing binding. -/
def Row.setCol (r : Row) (c : String) (v : Val) : Row :=
  r.filter (fun p => decide (p.1 ≠ c)) ++ [(c, v)]

/-- A DataFrame: a list of column names and a list of rows. -/
structure DF where
  cols : List String
  rows : List Row
deriving DecidableEq

/-- A column is numeric (pandas numeric dtype) when every cell of it is a
number or missing. -/
def isNumericCol (df : DF) (c : String) : Bool :=
  df.rows.all (fun r =>
    match Row.get r c with
    | Val.num _ => true
    | Val.na => true
    | Val.str _ => false)

/-- `df.select_dtypes(include='number').columns`. -/
def numCols (df : DF) : List String :=
  df.cols.filter (fun c => isNumericCol df c)

/-- Values present (non-missing) in a column, in row order. -/
def colPresent (df : DF) (c : String) : List ℚ :=
  df.rows.filterMap (fun r =>
    match Row.get r c with
    | Val.num q => some q
    | _ => none)

/-- Arithmetic mean of a list of rationals. -/
def meanQ (l : List ℚ) : ℚ :=
  l.sum / l.length

/-- `df[c].mean()`: mean over the present values; `NaN` (`none`) if all are
missing. -/
def colMean (df : DF) (c : String) : Option ℚ :=
  if colPresent df c = [] then none else some (meanQ (colPresent df c))

/-- Round to the nearest integer, ties to even (numpy / pandas `round`). -/
def roundHalfEven (q : ℚ) : ℤ :=
  if q - ⌊q⌋ < 1 / 2 then ⌊q⌋
  else if 1 / 2 < q - ⌊q⌋ then ⌊q⌋ + 1
  else if ⌊q⌋ % 2 = 0 then ⌊q⌋ else ⌊q⌋ + 1

/-- `round(x, 4)`. -/
def round4 (q : ℚ) : ℚ :=
  (roundHalfEven (q * 10000) : ℚ) / 10000

/-- `drop_duplicates(subset=key)` on the row list: keep the first row for each
key value (pandas treats `NaN` keys as equal to each other here). -/
def dedupRows (key : String) (seen : List Val) : List Row → List Row
  | [] => []
  | r :: rs =>
      if Row.get r key ∈ seen then dedupRows key seen rs
      else r :: dedupRows key (Row.get r key :: seen) rs

/-- `df.drop_duplicates(subset=key)`. -/
def dedupBy (df : DF) (key : String) : DF :=
  { df with rows := dedupRows key [] df.rows }

/-- One row of `df[num_cols].fillna(df[num_cols].mean())`: each missing cell
of a listed column is replaced by that column's mean value (when the column
has one). -/
def fillRow (cols : List String) (mean : String → Option Val) (r : Row) : Row :=
  r.map (fun p =>
    if p.1 ∈ cols ∧ p.2 = Val.na then
      match mean p.1 with
      | some v => (p.1, v)
      | none => p
    else p)

/-- `df[num_cols] = df[num_cols].fillna(df[num_cols].mean())`. -/
def fillnaMeanCols (cols : List String) (df : DF) : DF :=
  { df with
    rows := df.rows.map (fillRow cols (fun c => (colMean df c).map Val.num)) }

/-- One row of `df[num_cols].round(4)`. -/
def roundRow (cols : List String) (r : Row) : Row :=
  r.map (fun p =>
    match p.2 with
    | Val.num q => if p.1 ∈ cols then (p.1, Val.num (round4 q)) else p
    | _ => p)

/-- `df[num_cols] = df[num_cols].round(4)`. -/
def roundCols4 (cols : List String) (df : DF) : DF :=
  { df with rows := df.rows.map (roundRow cols) }

/-- The conditional deduplication step of `clean_and_tidy`:
`if 'file_name' in df.columns: df = df.drop_duplicates(subset='file_name')`. -/
def dedupStep (df : DF) : DF :=
  if "file_name" ∈ df.cols then dedupBy df "file_name" else df

/-- `clean_and_tidy` (src/etl/transform.py): deduplicate by `file_name` when
that column exists, impute missing numeric cells with the column mean
computed over the rows remaining after deduplication, then round the numeric
columns to 4 decimal digits.  The numeric-column set is the frame's numeric
dtypes, fixed at CSV load and unchanged by dropping rows, hence computed from
the input frame. -/
def clean_and_tidy (df : DF) : DF :=
  let df1 := dedupStep df
  let num_cols := numCols df
  roundCols4 num_cols (fillnaMeanCols num_cols df1)

/-- The real value `StandardScaler` sees for one `rms_mean` cell after
`.fillna(0)`: the number itself, or `0` when missing. -/
def rmsReal (v : Val) : ℝ :=
  match v with
  | Val.num q => (q : ℝ)
  | _ => 0

/-- The `rms_mean` column as fed to the scaler (`df[['rms_mean']].fillna(0)`). -/
def rmsColumn (df : DF) : List ℝ :=
  df.rows.map (fun r => rmsReal (Row.get r "rms_mean"))

/-- `StandardScaler().fit_transform` on one column: subtract the column mean
and divide by the population standard deviation (a zero standard deviation is
replaced by 1, as sklearn's `_handle_zeros_in_scale` does). -/
noncomputable def standardScale (xs : List ℝ) : List ℝ :=
  let μ : ℝ := xs.sum / xs.length
  let σ : ℝ := Real.sqrt ((xs.map (fun x => (x - μ) ^ 2)).sum / xs.length)
  let s : ℝ := if σ = 0 then 1 else σ
  xs.map (fun x => (x - μ) / s)

/-- `add_scaled_energy` (src/etl/transform.py): when an `rms_mean` column
exists, compute the z-scored `rms_scaled` column from the zero-filled
`rms_mean` column; otherwise return the frame untouched (no new column, no
error).  The frame and the added real-valued column are returned as a pair. -/
noncomputable def add_scaled_energy (df : DF) : DF × Option (List ℝ) :=
  if "rms_mean" ∈ df.cols then (df, some (standardScale (rmsColumn df)))
  else (df, none)

/-- `transform_features` (src/etl/transform.py): `None` input models the
missing input file (the only abort in the function); otherwise the loaded
frame is passed through `clean_and_tidy` and `add_scaled_energy` and written
out. -/
noncomputable def transform_features (input : Option DF) :
    Option (DF × Option (List ℝ)) :=
  match input with
  | none => none
  | some df => some (add_scaled_energy (clean_and_tidy df))

example : round4 (1 / 3) = 3333 / 10000 := by
  norm_num [round4, roundHalfEven]

/-- The `(name, artists)` merge key of a row. -/
def keyOf (r : Row) : Val × Val :=
  (Row.get r "name", Row.get r "artists")

/-- Columns contributed by the right table in a merge on `(name, artists)`:
the right columns other than the keys. -/
def rightOnlyCols (ldf : DF) : List String :=
  ldf.cols.filter (fun c => decide (c ≠ "name") && decide (c ≠ "artists"))

/-- Rows of the right table matching a left row's key. -/
def matchesIn (ldf : DF) (r : Row) : List Row :=
  ldf.rows.filter (fun s => decide (keyOf s = keyOf r))

/-- A merged row: the left row followed by the right table's non-key cells. -/
def combineRow (ldf : DF) (r s : Row) : Row :=
  r ++ (rightOnlyCols ldf).map (fun c => (c, Row.get s c))

/-- `pd.merge(df, ldf, on=["name", "artists"], how="inner")` (documented
pandas semantics; non-key columns assumed disjoint, as in the pipeline). -/
def innerMerge (df ldf : DF) : DF :=
  { cols := df.cols ++ rightOnlyCols ldf,
    rows := df.rows.flatMap (fun r => (matchesIn ldf r).map (combineRow ldf r)) }

/-- `pd.merge(df, ldf, on=["name", "artists"], how="left")`: unmatched left
rows survive with missing right-side cells. -/
def leftMerge (df ldf : DF) : DF :=
  { cols := df.cols ++ rightOnlyCols ldf,
    rows := df.rows.flatMap (fun r =>
      if matchesIn ldf r = [] then [r ++ (rightOnlyCols ldf).map (fun c => (c, Val.na))]
      else (matchesIn ldf r).map (combineRow ldf r)) }

/-- `sklearn.model_selection.train_test_split(..., test_size=0.2,
random_state=42)`, modelled from its documented contract: the row indices are
shuffled by the seeded generator — abstracted as the permutation `perm` of
`range n` — and `ceil(0.2 * n)` of them become the test split, the rest the
training split.  Returns `(train_indices, test_indices)`. -/
def train_test_split_idx (perm : List ℕ) : List ℕ × List ℕ :=
  (perm.drop ((perm.length + 4) / 5), perm.take ((perm.length + 4) / 5))

/-- Numeric-column projection of one row: `X = df.select_dtypes(include="number")`. -/
def numProj (df : DF) (r : Row) : Row :=
  (numCols df).map (fun c => (c, Row.get r c))

/-- The training-split feature rows `X_train` of the merged frame. -/
def trainFeatures (perm : List ℕ) (df : DF) : List Row :=
  (train_test_split_idx perm).1.filterMap
    (fun i => (df.rows.map (numProj df)).get? i)

/-- The training-split label cells `y_train` of the merged frame. -/
def trainLabels (perm : List ℕ) (df : DF) : List Val :=
  (train_test_split_idx perm).1.filterMap
    (fun i => (df.rows.map (fun r => Row.get r "mood")).get? i)

/-- `train_classifier` (src/analysis/supervised_model.py).  `None` inputs
model missing input files; the fitted random-forest classifier is abstracted
as the function `fit`, mapping training features and labels to a predictor.
The merged frame is the inner join of features and labels on
`(name, artists)`; the model is fit on the numeric columns of the training
split and a `predicted_mood` is written for every merged row. -/
def train_classifier (perm : List ℕ) (fit : List Row → List Val → (Row → Val))
    (features labels : Option DF) : Option DF :=
  match features, labels with
  | some fdf, some ldf =>
    let df := innerMerge fdf ldf
    if "mood" ∈ df.cols then
      let clf := fit (trainFeatures perm df) (trainLabels perm df)
      some { cols := df.cols ++ ["predicted_mood"],
             rows := df.rows.map (fun r => Row.setCol r "predicted_mood" (clf (numProj df r))) }
    else none
  | _, _ => none

/-- The numeric feature matrix the clusterer fits on:
`features = df.select_dtypes(include='number')`. -/
def featRows (df : DF) : List Row :=
  df.rows.map (numProj df)

/-- `df['cluster'] = labels` (positional). -/
def addClusterCol (df : DF) (labels : List ℕ) : DF :=
  { cols := if "cluster" ∈ df.cols then df.cols else df.cols ++ ["cluster"],
    rows := List.zipWith
      (fun (r : Row) (v : ℕ) => Row.setCol r "cluster" (Val.num (v : ℚ)))
      df.rows labels }

/-- `run_kmeans_clustering` (src/analysis/unsupervised_model.py).  `None`
inputs model missing input files.  The KMeans assignment itself is abstracted
as the function `km` from the numeric feature rows and the cluster count to
per-row labels; sklearn's fit-time validation — an error unless
`1 ≤ n_clusters ≤ n_samples` — is modelled from its documented contract and
happens after the inputs are read (the repository code itself performs no
validation).  Mood labels are attached afterwards by a left join. -/
def run_kmeans_clustering (km : List Row → ℕ → List ℕ)
    (input labels : Option DF) (n_clusters : ℕ) : Option (Except String DF) :=
  match input, labels with
  | some df, some ldf =>
    if n_clusters = 0 ∨ df.rows.length < n_clusters then
      some (Except.error "sklearn: n_samples should be >= n_clusters")
    else
      let dfc := addClusterCol df (km (featRows df) n_clusters)
      some (Except.ok (leftMerge dfc ldf))
  | _, _ => none

/-- A concrete deterministic stand-in assignment for the abstract KMeans
function (cluster ids assigned cyclically); used only to instantiate closed
statements. -/
def kmDefault (feats : List Row) (k : ℕ) : List ℕ :=
  (List.range feats.length).map (fun i => i % k)

/-- `evaluate_unsupervised` (src/analysis/evaluate.py): `None` models a
missing predictions file; the column check mirrors the source.  The value
returned models the printed `groupby(['mood','cluster']).size().unstack(fill_value=0)`
table through the functions `moodsOf`, `clustersOf` and `cellCount` below. -/
def evaluate_unsupervised (input : Option DF) : Option DF :=
  match input with
  | none => none
  | some df => if "mood" ∈ df.cols ∧ "cluster" ∈ df.cols then some df else none

/-- The distinct non-missing mood values of the frame (`groupby` drops
`NaN` group keys). -/
def moodsOf (df : DF) : List Val :=
  (df.rows.filterMap (fun r =>
    if Row.get r "mood" = Val.na then none else some (Row.get r "mood"))).dedup

/-- The distinct non-missing cluster values of the frame. -/
def clustersOf (df : DF) : List Val :=
  (df.rows.filterMap (fun r =>
    if Row.get r "cluster" = Val.na then none else some (Row.get r "cluster"))).dedup

/-- One cell of the mood × cluster contingency table: the number of rows with
that mood and that cluster id. -/
def cellCount (df : DF) (m c : Val) : ℕ :=
  df.rows.countP (fun r => decide (Row.get r "mood" = m ∧ Row.get r "cluster" = c))

/-- State of the on-disk audio cache across acquisition calls: the set of
file names for which `data/audio/{filename}.mp3` exists, plus a counter of
external fetch attempts (`yt_dlp.YoutubeDL(...).download` calls). -/
structure DLState where
  cache : List String
  fetches : ℕ
deriving DecidableEq

/-- `download_track_from_youtube` (src/etl/youtube.py): if the canonical path
already exists, skip — no external call — and return `False`; otherwise
perform one external fetch (its success modelled by `fetchOk`), cache the
asset on success and return `True`, or return `False` on failure. -/
def download_track_from_youtube (fetchOk : String → Bool) (st : DLState)
    (filename : String) : DLState × Bool :=
  if filename ∈ st.cache then (st, false)
  else if fetchOk filename then
    ({ cache := filename :: st.cache, fetches := st.fetches + 1 }, true)
  else ({ st with fetches := st.fetches + 1 }, false)

/-- `download_tracks_from_user_library` (src/etl/youtube.py): walk the track
list in order, threading the cache state and collecting the per-track
`downloaded` column. -/
def download_tracks_from_user_library (fetchOk : String → Bool) (st : DLState) :
    List String → DLState × List Bool
  | [] => (st, [])
  | f :: fs =>
      let p := download_track_from_youtube fetchOk st f
      let rest := download_tracks_from_user_library fetchOk p.1 fs
      (rest.1, p.2 :: rest.2)

/-- Whether a clustering run produced an output table (as opposed to a
missing-file `None` or a raised error). -/
def isOkOut : Option (Except String DF) → Bool
  | some (Except.ok _) => true
  | _ => false

/-- The frame with every missing `rms_mean` cell replaced by `0` (what
`df[['rms_mean']].fillna(0)` denotes); used to state that the scaler treats
missing energies as zero. -/
def rmsZeroFill (df : DF) : DF :=
  { df with
    rows := df.rows.map (fun r =>
      if Row.get r "rms_mean" = Val.na then Row.setCol r "rms_mean" (Val.num 0)
      else r) }

lemma cache_subset_track (fetchOk : String → Bool) (st : DLState) (f : String) :
    st.cache ⊆ (download_track_from_youtube fetchOk st f).1.cache := by
  unfold download_track_from_youtube
  split
  · exact fun a ha => ha
  · split
    · exact fun a ha => List.mem_cons_of_mem _ ha
    · exact fun a ha => ha

lemma mem_cache_track (fetchOk : String → Bool) (st : DLState) (f : String)
    (h : fetchOk f = true) :
    f ∈ (download_track_from_youtube fetchOk st f).1.cache := by
  unfold download_track_from_youtube
  split
  · assumption
  · simp [h]

lemma cache_subset_batch (fetchOk : String → Bool) (files : List String) (st : DLState) :
    st.cache ⊆ (download_tracks_from_user_library fetchOk st files).1.cache := by
  induction files generalizing st with
  | nil => exact fun a ha => ha
  | cons f fs ih =>
      exact fun a ha =>
        ih (download_track_from_youtube fetchOk st f).1
          (cache_subset_track fetchOk st f ha)

lemma all_cached_after_batch (fetchOk : String → Bool) (files : List String)
    (st : DLState) (hok : ∀ f ∈ files, fetchOk f = true) :
    ∀ f ∈ files, f ∈ (download_tracks_from_user_library fetchOk st files).1.cache := by
  induction files generalizing st with
  | nil => intro f hf; cases hf
  | cons g gs ih =>
      intro f hf
      rcases List.mem_cons.mp hf with rfl | hf
      · exact cache_subset_batch fetchOk gs _
          (mem_cache_track fetchOk st f (hok f (List.mem_cons_self f gs)))
      · exact ih _ (fun a ha => hok a (List.mem_cons_of_mem g ha)) f hf

lemma batch_on_cached (fetchOk : String → Bool) (files : List String) (st : DLState)
    (hc : ∀ f ∈ files, f ∈ st.cache) :
    download_tracks_from_user_library fetchOk st files
      = (st, files.map (fun _ => false)) := by
  induction files with
  | nil => rfl
  | cons g gs ih =>
      have hg : g ∈ st.cache := hc g (List.mem_cons_self g gs)
      show (let p := download_track_from_youtube fetchOk st g
            let rest := download_tracks_from_user_library fetchOk p.1 gs
            (rest.1, p.2 :: rest.2)) = _
      simp only [download_track_from_youtube, if_pos hg]
      rw [ih (fun a ha => hc a (List.mem_cons_of_mem g ha))]
      simp

/-- Claim C1 (counterexample).  The claim states that a cache hit is reported
as `downloaded = true` and that a second batch run yields identical
`downloaded` results.  In the code a cache hit returns `False` ("Skipping"),
so with one track "a" whose fetch succeeds, the first batch run reports
`[true]` while the second reports `[false]`, and the per-track call on a
warm cache reports `false`, not `true`. -/
theorem claim_C1_counterexample :
    download_track_from_youtube (fun _ => true) ⟨["a"], 0⟩ "a" = (⟨["a"], 0⟩, false)
    ∧ (download_tracks_from_user_library (fun _ => true) ⟨[], 0⟩ ["a"]).2 = [true]
    ∧ (download_tracks_from_user_library (fun _ => true) ⟨["a"], 1⟩ ["a"]).2 = [false]
    ∧ ([false] : List Bool) ≠ [true] := by
  refine ⟨by decide, by decide, by decide, by decide⟩

/-- Claim C1 (amended).  If the asset for a track already exists at its
canonical path, `download_track_from_youtube` performs no external fetch and
leaves the cache state untouched, but reports the track as `downloaded =
false` (skipped), not `true`.  Consequently, when every fetch of the first
batch run succeeds, a second batch run over the same track list performs
zero external fetches (the state, including the fetch counter, is unchanged)
and reports `downloaded = false` for every track — not the same per-track
results as the first run. -/
theorem claim_C1 (fetchOk : String → Bool) (st : DLState) (f : String)
    (files : List String) (hcached : f ∈ st.cache)
    (hok : ∀ g ∈ files, fetchOk g = true) :
    download_track_from_youtube fetchOk st f = (st, false)
    ∧ download_tracks_from_user_library fetchOk
        (download_tracks_from_user_library fetchOk st files).1 files
      = ((download_tracks_from_user_library fetchOk st files).1,
         files.map (fun _ => false)) := by
  constructor
  · unfold download_track_from_youtube
    rw [if_pos hcached]
  · exact batch_on_cached fetchOk files _ (all_cached_after_batch fetchOk files st hok)

/-- Claim C1 (witness): the amended statement applied to a concrete cache
holding "a" and a batch over "b" whose fetch succeeds. -/
theorem claim_C1_witness :
    ("a" ∈ (⟨["a"], 0⟩ : DLState).cache)
    ∧ (∀ g ∈ ["b"], (fun _ : String => true) g = true)
    ∧ (download_track_from_youtube (fun _ => true) ⟨["a"], 0⟩ "a" = (⟨["a"], 0⟩, false)
       ∧ download_tracks_from_user_library (fun _ => true)
           (download_tracks_from_user_library (fun _ => true) ⟨["a"], 0⟩ ["b"]).1 ["b"]
         = ((download_tracks_from_user_library (fun _ => true) ⟨["a"], 0⟩ ["b"]).1,
            ["b"].map (fun _ => false))) :=
  ⟨by decide, by decide,
   claim_C1 (fun _ => true) ⟨["a"], 0⟩ "a" ["b"] (by decide) (by decide)⟩

lemma dedupStep_cols (df : DF) : (dedupStep df).cols = df.cols := by
  unfold dedupStep dedupBy
  split <;> rfl

lemma clean_and_tidy_cols (df : DF) : (clean_and_tidy df).cols = df.cols := by
  unfold clean_and_tidy roundCols4 fillnaMeanCols
  simp [dedupStep_cols]

/-- Claim C2 (counterexample).  The claim states that an input table lacking
the audio-feature columns entirely makes the transform abort with a
"missing required columns" diagnostic and produce no output.  The code has
no such check: on a table with only a `name` column the transform completes
and returns the table unchanged (and adds no `rms_scaled`). -/
theorem claim_C2_counterexample :
    (transform_features (some ⟨["name"], [[("name", Val.str "x")]]⟩)).isSome = true
    ∧ (transform_features (some ⟨["name"], [[("name", Val.str "x")]]⟩)).map
        (fun p => p.1)
      = some ⟨["name"], [[("name", Val.str "x")]]⟩
    ∧ (transform_features (some ⟨["name"], [[("name", Val.str "x")]]⟩)).map
        (fun p => p.2.isNone)
      = some true := by
  have h : transform_features (some ⟨["name"], [[("name", Val.str "x")]]⟩)
      = some (⟨["name"], [[("name", Val.str "x")]]⟩, none) := by
    simp [transform_features, add_scaled_energy, clean_and_tidy, dedupStep,
      numCols, isNumericCol, Row.get, fillnaMeanCols, fillRow, roundCols4,
      roundRow, clean_and_tidy_cols]
  rw [h]
  exact ⟨rfl, rfl, rfl⟩

/-- Claim C2 (amended).  The transform performs no schema validation: for an
input table lacking every audio-feature column it still completes and writes
an output with the same column set and no `rms_scaled` column.  The only
fail-fast abort in `transform_features` is a missing input file. -/
theorem claim_C2 (df : DF)
    (h : ∀ c ∈ ["tempo", "mfcc_mean", "chroma_mean", "zcr_mean",
                "spectral_centroid_mean", "rms_mean"], c ∉ df.cols) :
    transform_features none = none
    ∧ (transform_features (some df)).isSome = true
    ∧ (transform_features (some df)).map (fun p => p.1.cols) = some df.cols
    ∧ (transform_features (some df)).map (fun p => p.2.isNone) = some true := by
  have hrms : "rms_mean" ∉ (clean_and_tidy df).cols := by
    rw [clean_and_tidy_cols]
    exact h "rms_mean" (by simp)
  have hadd : add_scaled_energy (clean_and_tidy df) = (clean_and_tidy df, none) := by
    unfold add_scaled_energy
    rw [if_neg hrms]
  refine ⟨rfl, ?_, ?_, ?_⟩ <;>
    simp [transform_features, hadd, clean_and_tidy_cols]

/-- Claim C2 (witness): the amended statement at a table holding only a
`name` column. -/
theorem claim_C2_witness :
    (∀ c ∈ ["tempo", "mfcc_mean", "chroma_mean", "zcr_mean",
            "spectral_centroid_mean", "rms_mean"],
        c ∉ (⟨["name"], [[("name", Val.str "x")]]⟩ : DF).cols)
    ∧ (transform_features none = none
       ∧ (transform_features (some ⟨["name"], [[("name", Val.str "x")]]⟩)).isSome = true
       ∧ (transform_features (some ⟨["name"], [[("name", Val.str "x")]]⟩)).map
           (fun p => p.1.cols) = some (⟨["name"], [[("name", Val.str "x")]]⟩ : DF).cols
       ∧ (transform_features (some ⟨["name"], [[("name", Val.str "x")]]⟩)).map
           (fun p => p.2.isNone) = some true) :=
  ⟨by decide, claim_C2 ⟨["name"], [[("name", Val.str "x")]]⟩ (by decide)⟩

lemma sum_map_add_nat {α : Type} (f g : α → ℕ) (l : List α) :
    (l.map (fun x => f x + g x)).sum = (l.map f).sum + (l.map g).sum := by
  induction l with
  | nil => rfl
  | cons a l ih => simp [ih]; omega

lemma countP_or_disjoint {α : Type} (p q : α → Bool) (l : List α)
    (h : ∀ a ∈ l, ¬(p a = true ∧ q a = true)) :
    l.countP (fun a => p a || q a) = l.countP p + l.countP q := by
  induction l with
  | nil => rfl
  | cons a l ih =>
      have ha := h a (List.mem_cons_self a l)
      have ih := ih (fun b hb => h b (List.mem_cons_of_mem a hb))
      by_cases hp : p a = true
      · have hq : q a = false := by
          cases hqv : q a with
          | false => rfl
          | true => exact absurd ⟨hp, hqv⟩ ha
        simp [List.countP_cons, hp, hq, ih]
        try omega
      · have hp' : p a = false := by
          cases hpv : p a with
          | false => rfl
          | true => exact absurd hpv hp
        by_cases hq : q a = true <;>
          · simp [List.countP_cons, hp', hq, ih]
            try omega

lemma sum_countP_eq_countP_mem (ks : List (Val × Val)) (ls : List Row)
    (hnd : ks.Nodup) :
    (ks.map (fun k => ls.countP (fun s => decide (keyOf s = k)))).sum
      = ls.countP (fun s => decide (keyOf s ∈ ks)) := by
  induction ks with
  | nil => simp [List.countP_eq_length_filter]
  | cons k ks ih =>
      have hk : k ∉ ks := (List.nodup_cons.mp hnd).1
      have ih := ih (List.nodup_cons.mp hnd).2
      have hsplit :
          ls.countP (fun s => decide (keyOf s ∈ k :: ks))
            = ls.countP (fun s => decide (keyOf s = k)) +
              ls.countP (fun s => decide (keyOf s ∈ ks)) := by
        have hcongr :
            ls.countP (fun s => decide (keyOf s ∈ k :: ks))
              = ls.countP (fun s => decide (keyOf s = k) || decide (keyOf s ∈ ks)) := by
          apply List.countP_congr
          intro s _
          simp [List.mem_cons]
        rw [hcongr]
        apply countP_or_disjoint
        intro s _
        intro hcontra
        rcases hcontra with ⟨h1, h2⟩
        exact hk (by simpa [of_decide_eq_true h1] using of_decide_eq_true h2)
      simp only [List.map_cons, List.sum_cons, ih, hsplit]

lemma length_filter_key_le_one (ls : List Row) (k : Val × Val)
    (h : (ls.map keyOf).Nodup) :
    (ls.filter (fun s => decide (keyOf s = k))).length ≤ 1 := by
  induction ls with
  | nil => simp
  | cons s ls ih =>
      rw [List.map_cons] at h
      have hnd := List.nodup_cons.mp h
      by_cases hs : keyOf s = k
      · have hrest : ls.filter (fun t => decide (keyOf t = k)) = [] := by
          rw [List.filter_eq_nil_iff]
          intro t ht
          simp only [decide_eq_true_eq]
          intro htk
          exact hnd.1 (by rw [hs, ← htk]; exact List.mem_map_of_mem keyOf ht)
        simp [List.filter_cons, hs, hrest]
      · simpa [List.filter_cons, hs] using ih hnd.2

lemma matchesIn_length_le_one (ldf : DF) (r : Row)
    (h : (ldf.rows.map keyOf).Nodup) :
    (matchesIn ldf r).length ≤ 1 :=
  length_filter_key_le_one ldf.rows (keyOf r) h

lemma sum_map_one {α : Type} (l : List α) : (l.map (fun _ => 1)).sum = l.length := by
  induction l with
  | nil => rfl
  | cons a l ih =>
      simp only [List.map_cons, List.sum_cons, ih, List.length_cons]
      omega

lemma leftMerge_rows_length (fdf ldf : DF)
    (hl : (ldf.rows.map keyOf).Nodup) :
    (leftMerge fdf ldf).rows.length = fdf.rows.length := by
  show (fdf.rows.flatMap _).length = _
  rw [List.length_flatMap]
  have hone : ∀ r ∈ fdf.rows,
      (Function.comp List.length (fun r =>
        if matchesIn ldf r = [] then [r ++ (rightOnlyCols ldf).map (fun c => (c, Val.na))]
        else (matchesIn ldf r).map (combineRow ldf r))) r = (fun _ => 1) r := by
    intro r _
    by_cases hm : matchesIn ldf r = []
    · simp [Function.comp, hm]
    · have hle := matchesIn_length_le_one ldf r hl
      have hpos : 0 < (matchesIn ldf r).length := List.length_pos.mpr hm
      simp only [Function.comp, if_neg hm, List.length_map]
      omega
  rw [List.map_congr_left hone, sum_map_one]

lemma innerMerge_rows_length (fdf ldf : DF) :
    (innerMerge fdf ldf).rows.length
      = (fdf.rows.map (fun r => (matchesIn ldf r).length)).sum := by
  show (fdf.rows.flatMap _).length = _
  rw [List.length_flatMap]
  congr 1
  apply List.map_congr_left
  intro r _
  simp [Function.comp]

lemma innerMerge_le_left (fdf ldf : DF)
    (hl : (ldf.rows.map keyOf).Nodup) :
    (innerMerge fdf ldf).rows.length ≤ fdf.rows.length := by
  rw [innerMerge_rows_length]
  calc (fdf.rows.map (fun r => (matchesIn ldf r).length)).sum
      ≤ (fdf.rows.map (fun _ => 1)).sum := by
        apply List.sum_le_sum
        intro r hr
        exact matchesIn_length_le_one ldf r hl
    _ = fdf.rows.length := sum_map_one fdf.rows

lemma innerMerge_le_right (fdf ldf : DF)
    (hf : (fdf.rows.map keyOf).Nodup) :
    (innerMerge fdf ldf).rows.length ≤ ldf.rows.length := by
  rw [innerMerge_rows_length]
  have h1 : fdf.rows.map (fun r => (matchesIn ldf r).length)
      = (fdf.rows.map keyOf).map
          (fun k => ldf.rows.countP (fun s => decide (keyOf s = k))) := by
    rw [List.map_map]
    apply List.map_congr_left
    intro r _
    simp [Function.comp, matchesIn, List.countP_eq_length_filter]
  rw [h1, sum_countP_eq_countP_mem _ _ hf]
  exact List.countP_le_length _

/-- Claim C9 (counterexample).  The claim quantifies over every features and
labels table, but pandas joins multiply rows on duplicate keys: with one
feature row and a label table holding two rows with the same `(name,
artists)` key, the left join has 2 rows, not `|features| = 1` (and the inner
join also has 2 rows, exceeding `min(1, 2) = 1`). -/
theorem claim_C9_counterexample :
    (leftMerge ⟨["name", "artists"], [[("name", Val.str "n"), ("artists", Val.str "a")]]⟩
        ⟨["name", "artists", "mood"],
         [[("name", Val.str "n"), ("artists", Val.str "a"), ("mood", Val.str "Happy")],
          [("name", Val.str "n"), ("artists", Val.str "a"), ("mood", Val.str "Sad")]]⟩).rows.length = 2
    ∧ (innerMerge ⟨["name", "artists"], [[("name", Val.str "n"), ("artists", Val.str "a")]]⟩
        ⟨["name", "artists", "mood"],
         [[("name", Val.str "n"), ("artists", Val.str "a"), ("mood", Val.str "Happy")],
          [("name", Val.str "n"), ("artists", Val.str "a"), ("mood", Val.str "Sad")]]⟩).rows.length = 2
    ∧ (⟨["name", "artists"], [[("name", Val.str "n"), ("artists", Val.str "a")]]⟩ : DF).rows.length = 1
    ∧ (2 : ℕ) ≠ 1 := by
  refine ⟨by decide, by decide, by decide, by decide⟩

/-- Claim C9 (amended).  Join conservation holds once the label table's
`(name, artists)` keys are unique (which duplicate keys refute): then the
left join of features with labels has exactly `|features|` rows and the
inner join has at most `|features|` rows; if the features table's keys are
unique as well, the inner join has at most `min(|features|, |labels|)`
rows. -/
theorem claim_C9 (fdf ldf : DF) (hl : (ldf.rows.map keyOf).Nodup) :
    (leftMerge fdf ldf).rows.length = fdf.rows.length
    ∧ (innerMerge fdf ldf).rows.length ≤ fdf.rows.length
    ∧ ((fdf.rows.map keyOf).Nodup →
        (innerMerge fdf ldf).rows.length ≤ min fdf.rows.length ldf.rows.length) :=
  ⟨leftMerge_rows_length fdf ldf hl,
   innerMerge_le_left fdf ldf hl,
   fun hf => le_min (innerMerge_le_left fdf ldf hl) (innerMerge_le_right fdf ldf hf)⟩

/-- Claim C9 (witness): the amended statement at a one-row features table
and a one-row label table with distinct keys. -/
theorem claim_C9_witness :
    ((⟨["name", "artists", "mood"],
       [[("name", Val.str "n"), ("artists", Val.str "a"), ("mood", Val.str "Happy")]]⟩ : DF).rows.map keyOf).Nodup
    ∧ ((leftMerge ⟨["name", "artists"], [[("name", Val.str "n"), ("artists", Val.str "a")]]⟩
          ⟨["name", "artists", "mood"],
           [[("name", Val.str "n"), ("artists", Val.str "a"), ("mood", Val.str "Happy")]]⟩).rows.length
        = (⟨["name", "artists"], [[("name", Val.str "n"), ("artists", Val.str "a")]]⟩ : DF).rows.length
       ∧ (innerMerge ⟨["name", "artists"], [[("name", Val.str "n"), ("artists", Val.str "a")]]⟩
            ⟨["name", "artists", "mood"],
             [[("name", Val.str "n"), ("artists", Val.str "a"), ("mood", Val.str "Happy")]]⟩).rows.length
          ≤ (⟨["name", "artists"], [[("name", Val.str "n"), ("artists", Val.str "a")]]⟩ : DF).rows.length
       ∧ (((⟨["name", "artists"], [[("name", Val.str "n"), ("artists", Val.str "a")]]⟩ : DF).rows.map keyOf).Nodup →
           (innerMerge ⟨["name", "artists"], [[("name", Val.str "n"), ("artists", Val.str "a")]]⟩
              ⟨["name", "artists", "mood"],
               [[("name", Val.str "n"), ("artists", Val.str "a"), ("mood", Val.str "Happy")]]⟩).rows.length
             ≤ min (⟨["name", "artists"], [[("name", Val.str "n"), ("artists", Val.str "a")]]⟩ : DF).rows.length
                 (⟨["name", "artists", "mood"],
                   [[("name", Val.str "n"), ("artists", Val.str "a"), ("mood", Val.str "Happy")]]⟩ : DF).rows.length)) :=
  ⟨by decide,
   claim_C9 ⟨["name", "artists"], [[("name", Val.str "n"), ("artists", Val.str "a")]]⟩
     ⟨["name", "artists", "mood"],
      [[("name", Val.str "n"), ("artists", Val.str "a"), ("mood", Val.str "Happy")]]⟩
     (by decide)⟩

lemma sum_ite_val_count (x : Val) (cs : List Val) (hnd : cs.Nodup) :
    (cs.map (fun c => if x = c then 1 else 0)).sum = if x ∈ cs then 1 else 0 := by
  induction cs with
  | nil => simp
  | cons c cs ih =>
      have hnd' := List.nodup_cons.mp hnd
      by_cases hx : x = c
      · subst hx
        have hzero : (cs.map (fun c => if x = c then 1 else 0)).sum = 0 := by
          rw [List.sum_eq_zero]
          intro n hn
          rcases List.mem_map.mp hn with ⟨d, hd, hdn⟩
          have hxd : x ≠ d := fun h => hnd'.1 (h ▸ hd)
          simp [hxd] at hdn
          omega
        simp [hzero]
      · simp [hx, ih hnd'.2]

lemma sum_countP_by_value (v : Row → Val) (q : Row → Bool) (cs : List Val)
    (rs : List Row) (hnd : cs.Nodup) (hna : Val.na ∉ cs)
    (hmem : ∀ r ∈ rs, v r ≠ Val.na → v r ∈ cs) :
    (cs.map (fun c => rs.countP (fun r => q r && decide (v r = c)))).sum
      = rs.countP (fun r => q r && decide (v r ≠ Val.na)) := by
  induction rs with
  | nil => simp [List.countP_nil, List.sum_eq_zero]
  | cons r rs ih =>
      have hmem' : ∀ s ∈ rs, v s ≠ Val.na → v s ∈ cs :=
        fun s hs => hmem s (List.mem_cons_of_mem r hs)
      have hsplit :
          cs.map (fun c => (r :: rs).countP (fun s => q s && decide (v s = c)))
            = cs.map (fun c =>
                rs.countP (fun s => q s && decide (v s = c))
                + if q r && decide (v r = c) then 1 else 0) := by
        apply List.map_congr_left
        intro c _
        rw [List.countP_cons]
      rw [hsplit, sum_map_add_nat, ih hmem', List.countP_cons]
      congr 1
      by_cases hq : q r = true
      · have h1 : cs.map (fun c => if q r && decide (v r = c) then 1 else 0)
            = cs.map (fun c => if v r = c then 1 else 0) := by
          apply List.map_congr_left
          intro c _
          simp [hq]
        rw [h1, sum_ite_val_count (v r) cs hnd]
        by_cases hv : v r = Val.na
        · simp [hq, hv, hna]
        · have : v r ∈ cs := hmem r (List.mem_cons_self r rs) hv
          simp [this, hq, hv]
      · have hq' : q r = false := by
          cases hqv : q r with
          | false => rfl
          | true => exact absurd hqv hq
        rw [List.sum_eq_zero]
        · simp [hq']
        · intro n hn
          rcases List.mem_map.mp hn with ⟨c, _, hcn⟩
          simp [hq'] at hcn
          omega

lemma mem_clustersOf (df : DF) (r : Row) (hr : r ∈ df.rows)
    (hna : Row.get r "cluster" ≠ Val.na) :
    Row.get r "cluster" ∈ clustersOf df := by
  unfold clustersOf
  rw [List.mem_dedup]
  apply List.mem_filterMap.mpr
  exact ⟨r, hr, by rw [if_neg hna]⟩

lemma mem_moodsOf (df : DF) (r : Row) (hr : r ∈ df.rows)
    (hna : Row.get r "mood" ≠ Val.na) :
    Row.get r "mood" ∈ moodsOf df := by
  unfold moodsOf
  rw [List.mem_dedup]
  apply List.mem_filterMap.mpr
  exact ⟨r, hr, by rw [if_neg hna]⟩

lemma na_not_mem_clustersOf (df : DF) : Val.na ∉ clustersOf df := by
  unfold clustersOf
  rw [List.mem_dedup]
  intro h
  rcases List.mem_filterMap.mp h with ⟨r, _, hr⟩
  by_cases hna : Row.get r "cluster" = Val.na
  · rw [if_pos hna] at hr
    cases hr
  · rw [if_neg hna] at hr
    exact hna (Option.some.inj hr)

lemma na_not_mem_moodsOf (df : DF) : Val.na ∉ moodsOf df := by
  unfold moodsOf
  rw [List.mem_dedup]
  intro h
  rcases List.mem_filterMap.mp h with ⟨r, _, hr⟩
  by_cases hna : Row.get r "mood" = Val.na
  · rw [if_pos hna] at hr
    cases hr
  · rw [if_neg hna] at hr
    exact hna (Option.some.inj hr)

/-- Claim C4 (counterexample).  The claim states the contingency table's row
sums equal each mood's total row count and its grand total equals the number
of input rows having a cluster id.  pandas `groupby(['mood','cluster'])`
drops rows where either grouping key is missing: on a table with rows
(Happy, 0), (Happy, NaN), (NaN, 0) the Happy row of the table sums to 1
while the input has 2 Happy rows, and the grand total is 1 while 2 input
rows have a cluster id. -/
theorem claim_C4_counterexample :
    moodsOf ⟨["mood", "cluster"],
      [[("mood", Val.str "Happy"), ("cluster", Val.num 0)],
       [("mood", Val.str "Happy"), ("cluster", Val.na)],
       [("mood", Val.na), ("cluster", Val.num 0)]]⟩ = [Val.str "Happy"]
    ∧ clustersOf ⟨["mood", "cluster"],
        [[("mood", Val.str "Happy"), ("cluster", Val.num 0)],
         [("mood", Val.str "Happy"), ("cluster", Val.na)],
         [("mood", Val.na), ("cluster", Val.num 0)]]⟩ = [Val.num 0]
    ∧ ((clustersOf ⟨["mood", "cluster"],
          [[("mood", Val.str "Happy"), ("cluster", Val.num 0)],
           [("mood", Val.str "Happy"), ("cluster", Val.na)],
           [("mood", Val.na), ("cluster", Val.num 0)]]⟩).map
        (fun c => cellCount ⟨["mood", "cluster"],
          [[("mood", Val.str "Happy"), ("cluster", Val.num 0)],
           [("mood", Val.str "Happy"), ("cluster", Val.na)],
           [("mood", Val.na), ("cluster", Val.num 0)]]⟩ (Val.str "Happy") c)).sum = 1
    ∧ (⟨["mood", "cluster"],
        [[("mood", Val.str "Happy"), ("cluster", Val.num 0)],
         [("mood", Val.str "Happy"), ("cluster", Val.na)],
         [("mood", Val.na), ("cluster", Val.num 0)]]⟩ : DF).rows.countP
        (fun r => decide (Row.get r "mood" = Val.str "Happy")) = 2
    ∧ (⟨["mood", "cluster"],
        [[("mood", Val.str "Happy"), ("cluster", Val.num 0)],
         [("mood", Val.str "Happy"), ("cluster", Val.na)],
         [("mood", Val.na), ("cluster", Val.num 0)]]⟩ : DF).rows.countP
        (fun r => decide (Row.get r "cluster" ≠ Val.na)) = 2
    ∧ (1 : ℕ) ≠ 2 := by
  refine ⟨by decide, by decide, by decide, by decide, by decide, by decide⟩

/-- Claim C4 (amended).  Conservation holds relative to the rows `groupby`
keeps: for every mood value of the table, the mood's row of the mood ×
cluster contingency table sums to the number of input rows having that mood
and a non-missing cluster id, and the grand total of all cells equals the
number of input rows having both a non-missing mood and a non-missing
cluster id.  (Rows with a missing mood or a missing cluster are dropped by
the groupby, which is what refutes the claim as stated.) -/
theorem claim_C4 (df : DF) :
    (∀ m ∈ moodsOf df,
        ((clustersOf df).map (fun c => cellCount df m c)).sum
          = df.rows.countP (fun r =>
              decide (Row.get r "mood" = m) && decide (Row.get r "cluster" ≠ Val.na)))
    ∧ ((moodsOf df).map (fun m =>
          ((clustersOf df).map (fun c => cellCount df m c)).sum)).sum
        = df.rows.countP (fun r =>
            decide (Row.get r "mood" ≠ Val.na) && decide (Row.get r "cluster" ≠ Val.na)) := by
  have hrow : ∀ m, ((clustersOf df).map (fun c => cellCount df m c)).sum
      = df.rows.countP (fun r =>
          decide (Row.get r "mood" = m) && decide (Row.get r "cluster" ≠ Val.na)) := by
    intro m
    have hcell : (clustersOf df).map (fun c => cellCount df m c)
        = (clustersOf df).map (fun c => df.rows.countP (fun r =>
            (fun s => decide (Row.get s "mood" = m)) r
              && decide ((fun s => Row.get s "cluster") r = c))) := by
      apply List.map_congr_left
      intro c _
      unfold cellCount
      apply List.countP_congr
      intro r _
      simp [Bool.decide_and]
    rw [hcell]
    exact sum_countP_by_value (fun s => Row.get s "cluster")
      (fun s => decide (Row.get s "mood" = m)) (clustersOf df) df.rows
      (List.nodup_dedup _) (na_not_mem_clustersOf df)
      (fun r hr => mem_clustersOf df r hr)
  constructor
  · intro m _
    exact hrow m
  · have h1 : (moodsOf df).map (fun m =>
        ((clustersOf df).map (fun c => cellCount df m c)).sum)
        = (moodsOf df).map (fun m => df.rows.countP (fun r =>
            (fun s => decide (Row.get s "cluster" ≠ Val.na)) r
              && decide ((fun s => Row.get s "mood") r = m))) := by
      apply List.map_congr_left
      intro m _
      rw [hrow m]
      apply List.countP_congr
      intro r _
      rw [Bool.and_comm]
    rw [h1]
    have h2 := sum_countP_by_value (fun s => Row.get s "mood")
      (fun s => decide (Row.get s "cluster" ≠ Val.na)) (moodsOf df) df.rows
      (List.nodup_dedup _) (na_not_mem_moodsOf df)
      (fun r hr => mem_moodsOf df r hr)
    rw [h2]
    apply List.countP_congr
    intro r _
    rw [Bool.and_comm]

/-- Claim C4 (witness): the amended conservation at a one-row table with
mood Happy and cluster 0. -/
theorem claim_C4_witness :
    (Val.str "Happy" ∈ moodsOf ⟨["mood", "cluster"],
        [[("mood", Val.str "Happy"), ("cluster", Val.num 0)]]⟩)
    ∧ ((clustersOf ⟨["mood", "cluster"],
          [[("mood", Val.str "Happy"), ("cluster", Val.num 0)]]⟩).map
        (fun c => cellCount ⟨["mood", "cluster"],
          [[("mood", Val.str "Happy"), ("cluster", Val.num 0)]]⟩ (Val.str "Happy") c)).sum
      = (⟨["mood", "cluster"],
          [[("mood", Val.str "Happy"), ("cluster", Val.num 0)]]⟩ : DF).rows.countP
          (fun r => decide (Row.get r "mood" = Val.str "Happy")
            && decide (Row.get r "cluster" ≠ Val.na))
    ∧ ((moodsOf ⟨["mood", "cluster"],
          [[("mood", Val.str "Happy"), ("cluster", Val.num 0)]]⟩).map (fun m =>
          ((clustersOf ⟨["mood", "cluster"],
              [[("mood", Val.str "Happy"), ("cluster", Val.num 0)]]⟩).map
            (fun c => cellCount ⟨["mood", "cluster"],
              [[("mood", Val.str "Happy"), ("cluster", Val.num 0)]]⟩ m c)).sum)).sum
      = (⟨["mood", "cluster"],
          [[("mood", Val.str "Happy"), ("cluster", Val.num 0)]]⟩ : DF).rows.countP
          (fun r => decide (Row.get r "mood" ≠ Val.na)
            && decide (Row.get r "cluster" ≠ Val.na)) :=
  ⟨by decide,
   (claim_C4 ⟨["mood", "cluster"],
      [[("mood", Val.str "Happy"), ("cluster", Val.num 0)]]⟩).1
     (Val.str "Happy") (by decide),
   (claim_C4 ⟨["mood", "cluster"],
      [[("mood", Val.str "Happy"), ("cluster", Val.num 0)]]⟩).2⟩


lemma row_get_skip (l : List (String × Val)) (c : String) (v : Val)
    (t : List (String × Val)) (h : ∀ p ∈ l, p.1 ≠ c) :
    Row.get (l ++ (c, v) :: t) c = v := by
  induction l with
  | nil => simp [Row.get]
  | cons p l ih =>
      have hp : p.1 ≠ c := h p (List.mem_cons_self p l)
      have hrec := ih (fun s hs => h s (List.mem_cons_of_mem p hs))
      calc Row.get ((p :: l) ++ (c, v) :: t) c
          = Row.get (l ++ (c, v) :: t) c := by
            show Row.get ((p.1, p.2) :: (l ++ (c, v) :: t)) c = _
            simp [Row.get, hp]
        _ = v := hrec

lemma row_get_setCol_append (r t : Row) (c : String) (v : Val) :
    Row.get (Row.setCol r c v ++ t) c = v := by
  have heq : Row.setCol r c v ++ t
      = (r.filter (fun p => decide (p.1 ≠ c))) ++ (c, v) :: t := by
    simp [Row.setCol]
  rw [heq]
  apply row_get_skip
  intro p hp
  exact of_decide_eq_true (List.mem_filter.mp hp).2

lemma row_get_setCol (r : Row) (c : String) (v : Val) :
    Row.get (Row.setCol r c v) c = v := by
  have := row_get_setCol_append r [] c v
  simpa using this

lemma mem_zipWith_exists {α β γ : Type} (f : α → β → γ) (l1 : List α) (l2 : List β) :
    ∀ x ∈ List.zipWith f l1 l2, ∃ a ∈ l1, ∃ b ∈ l2, x = f a b := by
  induction l1 generalizing l2 with
  | nil => simp
  | cons a l1 ih =>
      cases l2 with
      | nil => simp
      | cons b l2 =>
          intro x hx
          rcases List.mem_cons.mp hx with rfl | hx
          · exact ⟨a, List.mem_cons_self a l1, b, List.mem_cons_self b l2, rfl⟩
          · rcases ih l2 x hx with ⟨a', ha', b', hb', hx'⟩
            exact ⟨a', List.mem_cons_of_mem a ha', b', List.mem_cons_of_mem b hb', hx'⟩

lemma leftMerge_row_from (a b : DF) :
    ∀ s ∈ (leftMerge a b).rows, ∃ r ∈ a.rows, ∃ t, s = r ++ t := by
  intro s hs
  rcases List.mem_flatMap.mp hs with ⟨r, hr, hsr⟩
  by_cases hm : matchesIn b r = []
  · rw [if_pos hm] at hsr
    rcases List.mem_singleton.mp hsr with rfl
    exact ⟨r, hr, _, rfl⟩
  · rw [if_neg hm] at hsr
    rcases List.mem_map.mp hsr with ⟨m, _, rfl⟩
    exact ⟨r, hr, _, rfl⟩

lemma addClusterCol_cluster (df : DF) (labels : List ℕ) :
    ∀ r ∈ (addClusterCol df labels).rows, ∃ v : ℕ,
      Row.get r "cluster" = Val.num v
      ∧ ∀ t : Row, Row.get (r ++ t) "cluster" = Val.num v := by
  intro r hr
  have hr' : r ∈ List.zipWith
      (fun (r : Row) (v : ℕ) => Row.setCol r "cluster" (Val.num (v : ℚ)))
      df.rows labels := by
    have := hr
    unfold addClusterCol at this
    exact this
  rcases mem_zipWith_exists
      (fun (r : Row) (v : ℕ) => Row.setCol r "cluster" (Val.num (v : ℚ)))
      df.rows labels r hr'
    with ⟨r0, _, v, _, rfl⟩
  exact ⟨v, row_get_setCol r0 "cluster" (Val.num v),
    fun t => row_get_setCol_append r0 t "cluster" (Val.num v)⟩

/-- Claim C8 (confirmed).  Cluster assignment never depends on the mood
label: for a valid cluster count, the run computes the clustered frame from
the feature table alone — fitting only on the numeric-column projection of
its rows — and two runs differing only in the label table left-join their
label tables onto the *same* clustered frame, so every output row carries a
cluster id taken from that shared frame. -/
theorem claim_C8 (km : List Row → ℕ → List ℕ) (df ldf1 ldf2 : DF) (k : ℕ)
    (hk : ¬(k = 0 ∨ df.rows.length < k)) :
    run_kmeans_clustering km (some df) (some ldf1) k
      = some (Except.ok (leftMerge (addClusterCol df (km (featRows df) k)) ldf1))
    ∧ run_kmeans_clustering km (some df) (some ldf2) k
      = some (Except.ok (leftMerge (addClusterCol df (km (featRows df) k)) ldf2))
    ∧ featRows df = df.rows.map (numProj df)
    ∧ (∀ s ∈ (leftMerge (addClusterCol df (km (featRows df) k)) ldf1).rows,
        ∃ r ∈ (addClusterCol df (km (featRows df) k)).rows,
          Row.get s "cluster" = Row.get r "cluster") := by
  refine ⟨?_, ?_, rfl, ?_⟩
  · show (if k = 0 ∨ df.rows.length < k then _ else _) = _
    rw [if_neg hk]
  · show (if k = 0 ∨ df.rows.length < k then _ else _) = _
    rw [if_neg hk]
  · intro s hs
    rcases leftMerge_row_from _ ldf1 s hs with ⟨r, hr, t, rfl⟩
    rcases addClusterCol_cluster df (km (featRows df) k) r hr with ⟨v, hv, hvt⟩
    exact ⟨r, hr, by rw [hvt t, hv]⟩

/-- Claim C8 (witness): the statement at a one-row feature table, `k = 1`,
and two different one-entry label tables. -/
theorem claim_C8_witness :
    ¬((1 : ℕ) = 0 ∨ (⟨["name", "artists", "tempo"],
        [[("name", Val.str "n"), ("artists", Val.str "a"), ("tempo", Val.num 1)]]⟩ : DF).rows.length < 1)
    ∧ (run_kmeans_clustering kmDefault
        (some ⟨["name", "artists", "tempo"],
          [[("name", Val.str "n"), ("artists", Val.str "a"), ("tempo", Val.num 1)]]⟩)
        (some ⟨["name", "artists", "mood"],
          [[("name", Val.str "n"), ("artists", Val.str "a"), ("mood", Val.str "Happy")]]⟩) 1
        = some (Except.ok (leftMerge
            (addClusterCol ⟨["name", "artists", "tempo"],
              [[("name", Val.str "n"), ("artists", Val.str "a"), ("tempo", Val.num 1)]]⟩
              (kmDefault (featRows ⟨["name", "artists", "tempo"],
                [[("name", Val.str "n"), ("artists", Val.str "a"), ("tempo", Val.num 1)]]⟩) 1))
            ⟨["name", "artists", "mood"],
              [[("name", Val.str "n"), ("artists", Val.str "a"), ("mood", Val.str "Happy")]]⟩))
       ∧ run_kmeans_clustering kmDefault
        (some ⟨["name", "artists", "tempo"],
          [[("name", Val.str "n"), ("artists", Val.str "a"), ("tempo", Val.num 1)]]⟩)
        (some ⟨["name", "artists", "mood"],
          [[("name", Val.str "n"), ("artists", Val.str "a"), ("mood", Val.str "Sad")]]⟩) 1
        = some (Except.ok (leftMerge
            (addClusterCol ⟨["name", "artists", "tempo"],
              [[("name", Val.str "n"), ("artists", Val.str "a"), ("tempo", Val.num 1)]]⟩
              (kmDefault (featRows ⟨["name", "artists", "tempo"],
                [[("name", Val.str "n"), ("artists", Val.str "a"), ("tempo", Val.num 1)]]⟩) 1))
            ⟨["name", "artists", "mood"],
              [[("name", Val.str "n"), ("artists", Val.str "a"), ("mood", Val.str "Sad")]]⟩))
       ∧ featRows ⟨["name", "artists", "tempo"],
            [[("name", Val.str "n"), ("artists", Val.str "a"), ("tempo", Val.num 1)]]⟩
          = (⟨["name", "artists", "tempo"],
              [[("name", Val.str "n"), ("artists", Val.str "a"), ("tempo", Val.num 1)]]⟩ : DF).rows.map
              (numProj ⟨["name", "artists", "tempo"],
                [[("name", Val.str "n"), ("artists", Val.str "a"), ("tempo", Val.num 1)]]⟩)
       ∧ (∀ s ∈ (leftMerge
            (addClusterCol ⟨["name", "artists", "tempo"],
              [[("name", Val.str "n"), ("artists", Val.str "a"), ("tempo", Val.num 1)]]⟩
              (kmDefault (featRows ⟨["name", "artists", "tempo"],
                [[("name", Val.str "n"), ("artists", Val.str "a"), ("tempo", Val.num 1)]]⟩) 1))
            ⟨["name", "artists", "mood"],
              [[("name", Val.str "n"), ("artists", Val.str "a"), ("mood", Val.str "Happy")]]⟩).rows,
          ∃ r ∈ (addClusterCol ⟨["name", "artists", "tempo"],
              [[("name", Val.str "n"), ("artists", Val.str "a"), ("tempo", Val.num 1)]]⟩
              (kmDefault (featRows ⟨["name", "artists", "tempo"],
                [[("name", Val.str "n"), ("artists", Val.str "a"), ("tempo", Val.num 1)]]⟩) 1)).rows,
            Row.get s "cluster" = Row.get r "cluster")) :=
  ⟨by decide,
   claim_C8 kmDefault
     ⟨["name", "artists", "tempo"],
       [[("name", Val.str "n"), ("artists", Val.str "a"), ("tempo", Val.num 1)]]⟩
     ⟨["name", "artists", "mood"],
       [[("name", Val.str "n"), ("artists", Val.str "a"), ("mood", Val.str "Happy")]]⟩
     ⟨["name", "artists", "mood"],
       [[("name", Val.str "n"), ("artists", Val.str "a"), ("mood", Val.str "Sad")]]⟩
     1 (by decide)⟩

/-- Claim C3 (counterexample).  The claim states that a cluster count
exceeding the number of distinct feature rows is rejected with "invalid
cluster count" before any computation, with no output.  The repository code
performs no such validation: on a 3-row table with only 2 distinct numeric
feature rows and `k = 3`, the run succeeds and produces a clustered output
table. -/
theorem claim_C3_counterexample :
    (featRows ⟨["name", "artists", "tempo"],
      [[("name", Val.str "n1"), ("artists", Val.str "a"), ("tempo", Val.num 1)],
       [("name", Val.str "n2"), ("artists", Val.str "a"), ("tempo", Val.num 1)],
       [("name", Val.str "n3"), ("artists", Val.str "a"), ("tempo", Val.num 2)]]⟩).dedup.length = 2
    ∧ (⟨["name", "artists", "tempo"],
        [[("name", Val.str "n1"), ("artists", Val.str "a"), ("tempo", Val.num 1)],
         [("name", Val.str "n2"), ("artists", Val.str "a"), ("tempo", Val.num 1)],
         [("name", Val.str "n3"), ("artists", Val.str "a"), ("tempo", Val.num 2)]]⟩ : DF).rows.length = 3
    ∧ (2 : ℕ) < 3
    ∧ isOkOut (run_kmeans_clustering kmDefault
        (some ⟨["name", "artists", "tempo"],
          [[("name", Val.str "n1"), ("artists", Val.str "a"), ("tempo", Val.num 1)],
           [("name", Val.str "n2"), ("artists", Val.str "a"), ("tempo", Val.num 1)],
           [("name", Val.str "n3"), ("artists", Val.str "a"), ("tempo", Val.num 2)]]⟩)
        (some ⟨["name", "artists", "mood"], []⟩) 3) = true := by
  refine ⟨by decide, by decide, by decide, by decide⟩

/-- Claim C3 (amended).  The repository code validates nothing itself; the
failure comes from the fitting library after the input files are read, and
its condition is on the number of rows, not of distinct rows: the run raises
(producing no output table) exactly when `k = 0` or `k` exceeds the row
count, and otherwise it succeeds and produces a clustered output — even when
`k` exceeds the number of distinct feature rows. -/
theorem claim_C3 (km : List Row → ℕ → List ℕ) (df ldf : DF) (k : ℕ) :
    ((k = 0 ∨ df.rows.length < k) →
        run_kmeans_clustering km (some df) (some ldf) k
          = some (Except.error "sklearn: n_samples should be >= n_clusters"))
    ∧ (¬(k = 0 ∨ df.rows.length < k) →
        isOkOut (run_kmeans_clustering km (some df) (some ldf) k) = true) := by
  constructor
  · intro hk
    show (if k = 0 ∨ df.rows.length < k then _ else _) = _
    rw [if_pos hk]
  · intro hk
    show isOkOut (if k = 0 ∨ df.rows.length < k then _ else _) = true
    rw [if_neg hk]
    rfl

/-- Claim C3 (witness): the amended statement at a one-row table, for the
failing count `k = 0` and the succeeding count `k = 1`. -/
theorem claim_C3_witness :
    ((0 : ℕ) = 0 ∨ (⟨["tempo"], [[("tempo", Val.num 1)]]⟩ : DF).rows.length < 0)
    ∧ run_kmeans_clustering kmDefault (some ⟨["tempo"], [[("tempo", Val.num 1)]]⟩)
        (some ⟨["name", "artists", "mood"], []⟩) 0
      = some (Except.error "sklearn: n_samples should be >= n_clusters")
    ∧ ¬((1 : ℕ) = 0 ∨ (⟨["tempo"], [[("tempo", Val.num 1)]]⟩ : DF).rows.length < 1)
    ∧ isOkOut (run_kmeans_clustering kmDefault (some ⟨["tempo"], [[("tempo", Val.num 1)]]⟩)
        (some ⟨["name", "artists", "mood"], []⟩) 1) = true :=
  ⟨Or.inl rfl,
   (claim_C3 kmDefault ⟨["tempo"], [[("tempo", Val.num 1)]]⟩
     ⟨["name", "artists", "mood"], []⟩ 0).1 (Or.inl rfl),
   by decide,
   (claim_C3 kmDefault ⟨["tempo"], [[("tempo", Val.num 1)]]⟩
     ⟨["name", "artists", "mood"], []⟩ 1).2 (by decide)⟩

lemma filterMap_get_length {α : Type} (l : List α) (idx : List ℕ)
    (h : ∀ i ∈ idx, i < l.length) :
    (idx.filterMap (fun i => l.get? i)).length = idx.length := by
  induction idx with
  | nil => rfl
  | cons i idx ih =>
      have hi : i < l.length := h i (List.mem_cons_self i idx)
      have hg := List.get?_eq_get hi
      rw [List.filterMap_cons, hg]
      simp only [List.length_cons]
      rw [ih (fun j hj => h j (List.mem_cons_of_mem i hj))]

lemma perm_indices_lt (perm : List ℕ) (n : ℕ) (hperm : perm.Perm (List.range n)) :
    perm.length = n ∧ ∀ i ∈ perm, i < n := by
  constructor
  · rw [hperm.length_eq, List.length_range]
  · intro i hi
    exact List.mem_range.mp (hperm.mem_iff.mp hi)

/-- Claim C7 (confirmed).  The supervised classifier inner-joins features to
labels on `(name, artists)` (dropping one-sided rows), splits the joined set
into train and test parts of sizes `n - ⌈n/5⌉` and `⌈n/5⌉` determined by the
fixed-seed shuffle `perm`, fits the model on the numeric-column projections
of the training split only, and writes a `predicted_mood` — the fitted
model's output on that row's numeric features — on every row of the full
joined set. -/
theorem claim_C7 (perm : List ℕ) (fit : List Row → List Val → (Row → Val))
    (fdf ldf : DF) (hm : "mood" ∈ (innerMerge fdf ldf).cols)
    (hperm : perm.Perm (List.range (innerMerge fdf ldf).rows.length)) :
    train_classifier perm fit (some fdf) (some ldf)
      = some { cols := (innerMerge fdf ldf).cols ++ ["predicted_mood"],
               rows := (innerMerge fdf ldf).rows.map (fun r =>
                 Row.setCol r "predicted_mood"
                   (fit (trainFeatures perm (innerMerge fdf ldf))
                        (trainLabels perm (innerMerge fdf ldf))
                        (numProj (innerMerge fdf ldf) r))) }
    ∧ ((innerMerge fdf ldf).rows.map (fun r =>
         Row.setCol r "predicted_mood"
           (fit (trainFeatures perm (innerMerge fdf ldf))
                (trainLabels perm (innerMerge fdf ldf))
                (numProj (innerMerge fdf ldf) r)))).length
        = (innerMerge fdf ldf).rows.length
    ∧ (∀ r ∈ (innerMerge fdf ldf).rows,
        Row.get (Row.setCol r "predicted_mood"
          (fit (trainFeatures perm (innerMerge fdf ldf))
               (trainLabels perm (innerMerge fdf ldf))
               (numProj (innerMerge fdf ldf) r))) "predicted_mood"
          = fit (trainFeatures perm (innerMerge fdf ldf))
                (trainLabels perm (innerMerge fdf ldf))
                (numProj (innerMerge fdf ldf) r))
    ∧ (trainFeatures perm (innerMerge fdf ldf)).length
        = (innerMerge fdf ldf).rows.length
          - ((innerMerge fdf ldf).rows.length + 4) / 5
    ∧ (trainLabels perm (innerMerge fdf ldf)).length
        = (innerMerge fdf ldf).rows.length
          - ((innerMerge fdf ldf).rows.length + 4) / 5
    ∧ (train_test_split_idx perm).2.length
        = ((innerMerge fdf ldf).rows.length + 4) / 5 := by
  rcases perm_indices_lt perm _ hperm with ⟨hlen, hmem⟩
  have hdrop : ∀ i ∈ (train_test_split_idx perm).1, i < (innerMerge fdf ldf).rows.length := by
    intro i hi
    exact hmem i (List.mem_of_mem_drop hi)
  have hdroplen : (train_test_split_idx perm).1.length
      = (innerMerge fdf ldf).rows.length - ((innerMerge fdf ldf).rows.length + 4) / 5 := by
    show (perm.drop ((perm.length + 4) / 5)).length = _
    rw [List.length_drop, hlen]
  refine ⟨?_, List.length_map _ _, fun r _ => row_get_setCol r _ _, ?_, ?_, ?_⟩
  · show (if "mood" ∈ (innerMerge fdf ldf).cols then _ else _) = _
    rw [if_pos hm]
  · unfold trainFeatures
    rw [filterMap_get_length _ _ (by simpa using hdrop), hdroplen]
  · unfold trainLabels
    rw [filterMap_get_length _ _ (by simpa using hdrop), hdroplen]
  · show (perm.take ((perm.length + 4) / 5)).length = _
    rw [List.length_take, hlen]
    have hle : ((innerMerge fdf ldf).rows.length + 4) / 5
        ≤ (innerMerge fdf ldf).rows.length := by omega
    omega

/-- Claim C7 (witness): the statement at one matching feature/label row, the
identity shuffle `[0]`, and a constant classifier. -/
theorem claim_C7_witness :
    ("mood" ∈ (innerMerge
        ⟨["name", "artists", "tempo"],
          [[("name", Val.str "n"), ("artists", Val.str "a"), ("tempo", Val.num 1)]]⟩
        ⟨["name", "artists", "mood"],
          [[("name", Val.str "n"), ("artists", Val.str "a"), ("mood", Val.str "Happy")]]⟩).cols)
    ∧ ([0].Perm (List.range (innerMerge
        ⟨["name", "artists", "tempo"],
          [[("name", Val.str "n"), ("artists", Val.str "a"), ("tempo", Val.num 1)]]⟩
        ⟨["name", "artists", "mood"],
          [[("name", Val.str "n"), ("artists", Val.str "a"), ("mood", Val.str "Happy")]]⟩).rows.length))
    ∧ (train_classifier [0] (fun _ _ _ => Val.str "Happy")
        (some ⟨["name", "artists", "tempo"],
          [[("name", Val.str "n"), ("artists", Val.str "a"), ("tempo", Val.num 1)]]⟩)
        (some ⟨["name", "artists", "mood"],
          [[("name", Val.str "n"), ("artists", Val.str "a"), ("mood", Val.str "Happy")]]⟩)).isSome
      = true :=
  ⟨by decide, by decide, by
    have h := (claim_C7 [0] (fun _ _ _ => Val.str "Happy")
      ⟨["name", "artists", "tempo"],
        [[("name", Val.str "n"), ("artists", Val.str "a"), ("tempo", Val.num 1)]]⟩
      ⟨["name", "artists", "mood"],
        [[("name", Val.str "n"), ("artists", Val.str "a"), ("mood", Val.str "Happy")]]⟩
      (by decide) (by decide)).1
    rw [h]
    rfl⟩

lemma rmsZeroFill_cols (df : DF) : (rmsZeroFill df).cols = df.cols := rfl

lemma rmsColumn_zeroFill (df : DF) : rmsColumn (rmsZeroFill df) = rmsColumn df := by
  unfold rmsColumn rmsZeroFill
  rw [List.map_map]
  apply List.map_congr_left
  intro r _
  show rmsReal (Row.get
      (if Row.get r "rms_mean" = Val.na
        then Row.setCol r "rms_mean" (Val.num 0) else r) "rms_mean")
    = rmsReal (Row.get r "rms_mean")
  by_cases hna : Row.get r "rms_mean" = Val.na
  · rw [if_pos hna, row_get_setCol r "rms_mean" (Val.num 0), hna]
    simp [rmsReal]
  · rw [if_neg hna]

/-- Claim C10 (confirmed).  `add_scaled_energy` on a frame with an
`rms_mean` column feeds the scaler the column with every missing entry
replaced by `0` (not the column mean): its output equals the output on the
zero-filled frame, so a missing-energy row is scaled as if its energy were
`0`.  On a frame without an `rms_mean` column the frame is returned
unchanged, with no `rms_scaled` column and no error. -/
theorem claim_C10 (df : DF) :
    ("rms_mean" ∉ df.cols → add_scaled_energy df = (df, none))
    ∧ ("rms_mean" ∈ df.cols →
        add_scaled_energy df = (df, some (standardScale (rmsColumn df)))
        ∧ rmsColumn (rmsZeroFill df) = rmsColumn df
        ∧ (add_scaled_energy df).2 = (add_scaled_energy (rmsZeroFill df)).2) := by
  constructor
  · intro h
    unfold add_scaled_energy
    rw [if_neg h]
  · intro h
    have h1 : add_scaled_energy df = (df, some (standardScale (rmsColumn df))) := by
      unfold add_scaled_energy
      rw [if_pos h]
    have h2 : "rms_mean" ∈ (rmsZeroFill df).cols := by
      rw [rmsZeroFill_cols]
      exact h
    have h3 : add_scaled_energy (rmsZeroFill df)
        = (rmsZeroFill df, some (standardScale (rmsColumn (rmsZeroFill df)))) := by
      unfold add_scaled_energy
      rw [if_pos h2]
    refine ⟨h1, rmsColumn_zeroFill df, ?_⟩
    rw [h1, h3, rmsColumn_zeroFill df]

/-- Claim C10 (witness): the absent-column case at a frame with only `name`,
and the missing-entry case at a one-row frame whose `rms_mean` is missing. -/
theorem claim_C10_witness :
    ("rms_mean" ∉ (⟨["name"], [[("name", Val.str "y")]]⟩ : DF).cols)
    ∧ add_scaled_energy ⟨["name"], [[("name", Val.str "y")]]⟩
        = (⟨["name"], [[("name", Val.str "y")]]⟩, none)
    ∧ ("rms_mean" ∈ (⟨["rms_mean"], [[("rms_mean", Val.na)]]⟩ : DF).cols)
    ∧ (add_scaled_energy ⟨["rms_mean"], [[("rms_mean", Val.na)]]⟩).2
        = (add_scaled_energy (rmsZeroFill ⟨["rms_mean"], [[("rms_mean", Val.na)]]⟩)).2 :=
  ⟨by decide,
   (claim_C10 ⟨["name"], [[("name", Val.str "y")]]⟩).1 (by decide),
   by decide,
   ((claim_C10 ⟨["rms_mean"], [[("rms_mean", Val.na)]]⟩).2 (by decide)).2.2⟩

lemma get_fillRow (cols : List String) (mean : String → Option Val) (r : Row)
    (c : String) (hc : c ∈ cols) (μ : ℚ) (hmean : mean c = some (Val.num μ)) :
    (Row.get r c = Val.na
      ∧ (Row.get (fillRow cols mean r) c = Val.na
         ∨ Row.get (fillRow cols mean r) c = Val.num μ))
    ∨ Row.get (fillRow cols mean r) c = Row.get r c := by
  induction r with
  | nil => exact Or.inr rfl
  | cons p r ih =>
      by_cases hp : p.1 = c
      · by_cases hna : p.2 = Val.na
        · left
          constructor
          · show (if p.1 = c then p.2 else Row.get r c) = Val.na
            rw [if_pos hp, hna]
          · right
            show Row.get (fillRow cols mean (p :: r)) c = Val.num μ
            have hcond : p.1 ∈ cols ∧ p.2 = Val.na := ⟨hp ▸ hc, hna⟩
            show Row.get ((if p.1 ∈ cols ∧ p.2 = Val.na then
                match mean p.1 with
                | some v => (p.1, v)
                | none => p
              else p) :: fillRow cols mean r) c = Val.num μ
            rw [if_pos hcond, hp, hmean]
            show (if c = c then Val.num μ else Row.get (fillRow cols mean r) c) = Val.num μ
            rw [if_pos rfl]
        · right
          have hcond : ¬(p.1 ∈ cols ∧ p.2 = Val.na) := fun h => hna h.2
          show Row.get ((if p.1 ∈ cols ∧ p.2 = Val.na then
              match mean p.1 with
              | some v => (p.1, v)
              | none => p
            else p) :: fillRow cols mean r) c = Row.get (p :: r) c
          rw [if_neg hcond]
          show (if p.1 = c then p.2 else Row.get (fillRow cols mean r) c)
            = (if p.1 = c then p.2 else Row.get r c)
          rw [if_pos hp, if_pos hp]
      · have hstep : Row.get (fillRow cols mean (p :: r)) c
            = Row.get (fillRow cols mean r) c := by
          by_cases hcond : p.1 ∈ cols ∧ p.2 = Val.na
          · show Row.get ((if p.1 ∈ cols ∧ p.2 = Val.na then
                match mean p.1 with
                | some v => (p.1, v)
                | none => p
              else p) :: fillRow cols mean r) c = _
            rw [if_pos hcond]
            cases hm : mean p.1 with
            | some v =>
                show (if p.1 = c then v else Row.get (fillRow cols mean r) c) = _
                rw [if_neg hp]
            | none =>
                show (if p.1 = c then p.2 else Row.get (fillRow cols mean r) c) = _
                rw [if_neg hp]
          · show Row.get ((if p.1 ∈ cols ∧ p.2 = Val.na then
                match mean p.1 with
                | some v => (p.1, v)
                | none => p
              else p) :: fillRow cols mean r) c = _
            rw [if_neg hcond]
            show (if p.1 = c then p.2 else Row.get (fillRow cols mean r) c) = _
            rw [if_neg hp]
      
        have horig : Row.get (p :: r) c = Row.get r c := by
          show (if p.1 = c then p.2 else Row.get r c) = Row.get r c
          rw [if_neg hp]
        rw [hstep, horig]
        exact ih

lemma colPresent_fill_acc (cols : List String) (mean : String → Option Val)
    (c : String) (μ : ℚ) (hc : c ∈ cols) (hmean : mean c = some (Val.num μ)) :
    ∀ rows : List Row, ∃ m : ℕ,
      ((rows.map (fillRow cols mean)).filterMap (fun r =>
          match Row.get r c with
          | Val.num q => some q
          | _ => none)).sum
        = (rows.filterMap (fun r =>
            match Row.get r c with
            | Val.num q => some q
            | _ => none)).sum + (m : ℚ) * μ
      ∧ ((rows.map (fillRow cols mean)).filterMap (fun r =>
          match Row.get r c with
          | Val.num q => some q
          | _ => none)).length
        = (rows.filterMap (fun r =>
            match Row.get r c with
            | Val.num q => some q
            | _ => none)).length + m := by
  intro rows
  induction rows with
  | nil => exact ⟨0, by simp, by simp⟩
  | cons r rows ih =>
      rcases ih with ⟨m, hs, hl⟩
      rcases get_fillRow cols mean r c hc μ hmean with ⟨hna, hfill⟩ | heq
      · rcases hfill with hf | hf
        · refine ⟨m, ?_, ?_⟩
          · simp only [List.map_cons, List.filterMap_cons, hna, hf]
            exact hs
          · simp only [List.map_cons, List.filterMap_cons, hna, hf]
            exact hl
        · refine ⟨m + 1, ?_, ?_⟩
          · simp only [List.map_cons, List.filterMap_cons, hna, hf, List.sum_cons]
            rw [hs]
            push_cast
            ring
          · simp only [List.map_cons, List.filterMap_cons, hna, hf, List.length_cons]
            omega
      · cases hget : Row.get r c with
        | num q =>
            refine ⟨m, ?_, ?_⟩
            · simp only [List.map_cons, List.filterMap_cons, heq, hget, List.sum_cons]
              rw [hs]
              ring
            · simp only [List.map_cons, List.filterMap_cons, heq, hget, List.length_cons]
              omega
        | str s =>
            refine ⟨m, ?_, ?_⟩
            · simp only [List.map_cons, List.filterMap_cons, heq, hget]
              exact hs
            · simp only [List.map_cons, List.filterMap_cons, heq, hget]
              exact hl
        | na =>
            refine ⟨m, ?_, ?_⟩
            · simp only [List.map_cons, List.filterMap_cons, heq, hget]
              exact hs
            · simp only [List.map_cons, List.filterMap_cons, heq, hget]
              exact hl


lemma mean_fill_arith (S : ℚ) (k m : ℕ) (hk : 0 < (k : ℚ)) :
    (S + (m : ℚ) * (S / k)) / ((k + m : ℕ) : ℚ) = S / k := by
  have hm : (0 : ℚ) ≤ (m : ℚ) := Nat.cast_nonneg m
  have hkm : (0 : ℚ) < ((k + m : ℕ) : ℚ) := by
    push_cast
    linarith
  field_simp
  ring

/-- Claim C6 (amended).  Imputation is mean-preserving at the step where it
happens, before rounding: for every numeric column with at least one present
value after deduplication, the mean of the imputed (pre-rounding) column
equals the mean over the present values of the deduplicated frame.  The
transform's final output is the *rounded* imputed frame (second conjunct),
and rounding can perturb both means — which is what refutes the claim as
stated about the final table. -/
theorem claim_C6 (df : DF) (c : String) (hc : c ∈ numCols df)
    (hp : colPresent (dedupStep df) c ≠ []) :
    meanQ (colPresent (fillnaMeanCols (numCols df) (dedupStep df)) c)
      = meanQ (colPresent (dedupStep df) c)
    ∧ clean_and_tidy df
      = roundCols4 (numCols df) (fillnaMeanCols (numCols df) (dedupStep df)) := by
  refine ⟨?_, rfl⟩
  have hmean : (fun x => (colMean (dedupStep df) x).map Val.num) c
      = some (Val.num (meanQ (colPresent (dedupStep df) c))) := by
    show (colMean (dedupStep df) c).map Val.num = _
    unfold colMean
    rw [if_neg hp]
    rfl
  rcases colPresent_fill_acc (numCols df)
      (fun x => (colMean (dedupStep df) x).map Val.num) c
      (meanQ (colPresent (dedupStep df) c)) hc hmean (dedupStep df).rows
    with ⟨m, hs, hl⟩
  have hcol : colPresent (fillnaMeanCols (numCols df) (dedupStep df)) c
      = ((dedupStep df).rows.map (fillRow (numCols df)
          (fun x => (colMean (dedupStep df) x).map Val.num))).filterMap
          (fun r =>
            match Row.get r c with
            | Val.num q => some q
            | _ => none) := rfl
  have horig : colPresent (dedupStep df) c
      = (dedupStep df).rows.filterMap (fun r =>
          match Row.get r c with
          | Val.num q => some q
          | _ => none) := rfl
  have hLsum : (colPresent (fillnaMeanCols (numCols df) (dedupStep df)) c).sum
      = (colPresent (dedupStep df) c).sum
        + (m : ℚ) * meanQ (colPresent (dedupStep df) c) := by
    rw [hcol, hs, ← horig]
  have hLlen : (colPresent (fillnaMeanCols (numCols df) (dedupStep df)) c).length
      = (colPresent (dedupStep df) c).length + m := by
    rw [hcol, hl, ← horig]
  have hk : 0 < ((colPresent (dedupStep df) c).length : ℚ) := by
    have h1 : 0 < (colPresent (dedupStep df) c).length := List.length_pos.mpr hp
    exact_mod_cast h1
  show (colPresent (fillnaMeanCols (numCols df) (dedupStep df)) c).sum
      / ((colPresent (fillnaMeanCols (numCols df) (dedupStep df)) c).length : ℚ)
    = meanQ (colPresent (dedupStep df) c)
  rw [hLsum, hLlen]
  exact mean_fill_arith (colPresent (dedupStep df) c).sum
    (colPresent (dedupStep df) c).length m hk

/-- Claim C6 (witness): the amended statement at a two-row frame whose
`tempo` column has one present value and one missing value. -/
theorem claim_C6_witness :
    ("tempo" ∈ numCols ⟨["tempo"], [[("tempo", Val.num 1)], [("tempo", Val.na)]]⟩)
    ∧ colPresent (dedupStep ⟨["tempo"], [[("tempo", Val.num 1)], [("tempo", Val.na)]]⟩) "tempo" ≠ []
    ∧ (meanQ (colPresent (fillnaMeanCols
          (numCols ⟨["tempo"], [[("tempo", Val.num 1)], [("tempo", Val.na)]]⟩)
          (dedupStep ⟨["tempo"], [[("tempo", Val.num 1)], [("tempo", Val.na)]]⟩)) "tempo")
        = meanQ (colPresent (dedupStep ⟨["tempo"], [[("tempo", Val.num 1)], [("tempo", Val.na)]]⟩) "tempo")
       ∧ clean_and_tidy ⟨["tempo"], [[("tempo", Val.num 1)], [("tempo", Val.na)]]⟩
        = roundCols4 (numCols ⟨["tempo"], [[("tempo", Val.num 1)], [("tempo", Val.na)]]⟩)
            (fillnaMeanCols (numCols ⟨["tempo"], [[("tempo", Val.num 1)], [("tempo", Val.na)]]⟩)
              (dedupStep ⟨["tempo"], [[("tempo", Val.num 1)], [("tempo", Val.na)]]⟩))) :=
  ⟨by decide, by decide,
   claim_C6 ⟨["tempo"], [[("tempo", Val.num 1)], [("tempo", Val.na)]]⟩ "tempo"
     (by decide) (by decide)⟩

/-- Claim C6 (counterexample).  On a frame whose `tempo` column is
`[0, 0, 1, missing]`, the transform imputes the missing cell with the mean
`1/3` and then rounds it to `0.3333`, so in the final table the mean over
the originally-present values (`1/3`) no longer equals the mean of the full
imputed column (`13333/40000 = 0.333325`): rounding after imputation breaks
the stated equality. -/
theorem claim_C6_counterexample :
    colPresent ⟨["tempo"],
      [[("tempo", Val.num 0)], [("tempo", Val.num 0)],
       [("tempo", Val.num 1)], [("tempo", Val.na)]]⟩ "tempo" = [0, 0, 1]
    ∧ colPresent (clean_and_tidy ⟨["tempo"],
        [[("tempo", Val.num 0)], [("tempo", Val.num 0)],
         [("tempo", Val.num 1)], [("tempo", Val.na)]]⟩) "tempo"
      = [0, 0, 1, 3333 / 10000]
    ∧ meanQ [(0 : ℚ), 0, 1] ≠ meanQ [(0 : ℚ), 0, 1, 3333 / 10000] := by
  have h1 : numCols ⟨["tempo"],
      [[("tempo", Val.num 0)], [("tempo", Val.num 0)],
       [("tempo", Val.num 1)], [("tempo", Val.na)]]⟩ = ["tempo"] := by
    simp [numCols, isNumericCol, Row.get]
  have h2 : dedupStep ⟨["tempo"],
      [[("tempo", Val.num 0)], [("tempo", Val.num 0)],
       [("tempo", Val.num 1)], [("tempo", Val.na)]]⟩
      = ⟨["tempo"],
        [[("tempo", Val.num 0)], [("tempo", Val.num 0)],
         [("tempo", Val.num 1)], [("tempo", Val.na)]]⟩ := by
    simp [dedupStep]
  have hcp : colPresent ⟨["tempo"],
      [[("tempo", Val.num 0)], [("tempo", Val.num 0)],
       [("tempo", Val.num 1)], [("tempo", Val.na)]]⟩ "tempo" = [0, 0, 1] := by
    simp [colPresent, Row.get]
  have h3 : colMean ⟨["tempo"],
      [[("tempo", Val.num 0)], [("tempo", Val.num 0)],
       [("tempo", Val.num 1)], [("tempo", Val.na)]]⟩ "tempo" = some (1 / 3) := by
    rw [colMean, hcp, if_neg (List.cons_ne_nil _ _)]
    norm_num [meanQ]
  have h4 : fillnaMeanCols ["tempo"] ⟨["tempo"],
      [[("tempo", Val.num 0)], [("tempo", Val.num 0)],
       [("tempo", Val.num 1)], [("tempo", Val.na)]]⟩
      = ⟨["tempo"],
        [[("tempo", Val.num 0)], [("tempo", Val.num 0)],
         [("tempo", Val.num 1)], [("tempo", Val.num (1 / 3))]]⟩ := by
    simp [fillnaMeanCols, fillRow, h3]
  have hr0 : round4 0 = 0 := by norm_num [round4, roundHalfEven]
  have hr1 : round4 1 = 1 := by norm_num [round4, roundHalfEven]
  have hr3 : round4 (1 / 3) = 3333 / 10000 := by norm_num [round4, roundHalfEven]
  have hr3i : round4 3⁻¹ = 3333 / 10000 := by
    rw [← one_div]
    exact hr3
  have h5 : roundCols4 ["tempo"] ⟨["tempo"],
      [[("tempo", Val.num 0)], [("tempo", Val.num 0)],
       [("tempo", Val.num 1)], [("tempo", Val.num (1 / 3))]]⟩
      = ⟨["tempo"],
        [[("tempo", Val.num 0)], [("tempo", Val.num 0)],
         [("tempo", Val.num 1)], [("tempo", Val.num (3333 / 10000))]]⟩ := by
    simp [roundCols4, roundRow, hr0, hr1, hr3, hr3i]
  have hct : clean_and_tidy ⟨["tempo"],
      [[("tempo", Val.num 0)], [("tempo", Val.num 0)],
       [("tempo", Val.num 1)], [("tempo", Val.na)]]⟩
      = ⟨["tempo"],
        [[("tempo", Val.num 0)], [("tempo", Val.num 0)],
         [("tempo", Val.num 1)], [("tempo", Val.num (3333 / 10000))]]⟩ := by
    show roundCols4 (numCols _) (fillnaMeanCols (numCols _) (dedupStep _)) = _
    rw [h1, h2, h4, h5]
  refine ⟨hcp, ?_, ?_⟩
  · rw [hct]
    simp [colPresent, Row.get]
  · norm_num [meanQ]


lemma get_fillRow_na_bound (cols : List String) (mean : String → Option Val)
    (r : Row) (c : String) (μ : ℚ) (hc : c ∈ cols)
    (hmean : mean c = some (Val.num μ)) (hbound : c ∈ r.map Prod.fst)
    (hna : Row.get r c = Val.na) :
    Row.get (fillRow cols mean r) c = Val.num μ := by
  induction r with
  | nil => cases hbound
  | cons p r ih =>
      by_cases hp : p.1 = c
      · have hpna : p.2 = Val.na := by
          have hstep : Row.get (p :: r) c = p.2 := by
            show (if p.1 = c then p.2 else Row.get r c) = p.2
            rw [if_pos hp]
          rw [hstep] at hna
          exact hna
        have hcond : p.1 ∈ cols ∧ p.2 = Val.na := ⟨hp ▸ hc, hpna⟩
        show Row.get ((if p.1 ∈ cols ∧ p.2 = Val.na then
            match mean p.1 with
            | some v => (p.1, v)
            | none => p
          else p) :: fillRow cols mean r) c = Val.num μ
        rw [if_pos hcond, hp, hmean]
        show (if c = c then Val.num μ else Row.get (fillRow cols mean r) c) = Val.num μ
        rw [if_pos rfl]
      · have hb : c ∈ p.1 :: r.map Prod.fst := by
          rw [List.map_cons] at hbound
          exact hbound
        have hbound' : c ∈ r.map Prod.fst := by
          rcases List.mem_cons.mp hb with h | h
          · exact absurd h.symm hp
          · exact h
        have hna' : Row.get r c = Val.na := by
          have hstep : Row.get (p :: r) c = Row.get r c := by
            show (if p.1 = c then p.2 else Row.get r c) = Row.get r c
            rw [if_neg hp]
          rw [hstep] at hna
          exact hna
        have hrec := ih hbound' hna'
        by_cases hcond : p.1 ∈ cols ∧ p.2 = Val.na
        · show Row.get ((if p.1 ∈ cols ∧ p.2 = Val.na then
              match mean p.1 with
              | some v => (p.1, v)
              | none => p
            else p) :: fillRow cols mean r) c = Val.num μ
          rw [if_pos hcond]
          cases hm : mean p.1 with
          | some v =>
              show (if p.1 = c then v else Row.get (fillRow cols mean r) c) = Val.num μ
              rw [if_neg hp]
              exact hrec
          | none =>
              show (if p.1 = c then p.2 else Row.get (fillRow cols mean r) c) = Val.num μ
              rw [if_neg hp]
              exact hrec
        · show Row.get ((if p.1 ∈ cols ∧ p.2 = Val.na then
              match mean p.1 with
              | some v => (p.1, v)
              | none => p
            else p) :: fillRow cols mean r) c = Val.num μ
          rw [if_neg hcond]
          show (if p.1 = c then p.2 else Row.get (fillRow cols mean r) c) = Val.num μ
          rw [if_neg hp]
          exact hrec

lemma get_roundRow (cols : List String) (r : Row) (c : String) :
    Row.get (roundRow cols r) c
      = match Row.get r c with
        | Val.num q => if c ∈ cols then Val.num (round4 q) else Val.num q
        | v => v := by
  induction r with
  | nil => rfl
  | cons p r ih =>
      rcases p with ⟨pc, pv⟩
      have hget : Row.get ((pc, pv) :: r) c = if pc = c then pv else Row.get r c := rfl
      cases pv with
      | num q =>
          have hcons : roundRow cols ((pc, Val.num q) :: r)
              = (if pc ∈ cols then (pc, Val.num (round4 q)) else (pc, Val.num q))
                  :: roundRow cols r := rfl
          rw [hcons, hget]
          by_cases hmem : pc ∈ cols <;> by_cases hp : pc = c
          · rw [if_pos hmem, if_pos hp]
            have hg : Row.get ((pc, Val.num (round4 q)) :: roundRow cols r) c
                = if pc = c then Val.num (round4 q) else Row.get (roundRow cols r) c := rfl
            rw [hg, if_pos hp]
            show Val.num (round4 q) = if c ∈ cols then Val.num (round4 q) else Val.num q
            rw [if_pos (hp ▸ hmem)]
          · rw [if_pos hmem, if_neg hp]
            have hg : Row.get ((pc, Val.num (round4 q)) :: roundRow cols r) c
                = if pc = c then Val.num (round4 q) else Row.get (roundRow cols r) c := rfl
            rw [hg, if_neg hp, ih]
          · rw [if_neg hmem, if_pos hp]
            have hg : Row.get ((pc, Val.num q) :: roundRow cols r) c
                = if pc = c then Val.num q else Row.get (roundRow cols r) c := rfl
            rw [hg, if_pos hp]
            show Val.num q = if c ∈ cols then Val.num (round4 q) else Val.num q
            rw [if_neg (hp ▸ hmem)]
          · rw [if_neg hmem, if_neg hp]
            have hg : Row.get ((pc, Val.num q) :: roundRow cols r) c
                = if pc = c then Val.num q else Row.get (roundRow cols r) c := rfl
            rw [hg, if_neg hp, ih]
      | str s =>
          have hcons : roundRow cols ((pc, Val.str s) :: r)
              = (pc, Val.str s) :: roundRow cols r := rfl
          rw [hcons, hget]
          by_cases hp : pc = c
          · have hg : Row.get ((pc, Val.str s) :: roundRow cols r) c
                = if pc = c then Val.str s else Row.get (roundRow cols r) c := rfl
            rw [hg, if_pos hp, if_pos hp]
          · have hg : Row.get ((pc, Val.str s) :: roundRow cols r) c
                = if pc = c then Val.str s else Row.get (roundRow cols r) c := rfl
            rw [hg, if_neg hp, if_neg hp, ih]
      | na =>
          have hcons : roundRow cols ((pc, Val.na) :: r)
              = (pc, Val.na) :: roundRow cols r := rfl
          rw [hcons, hget]
          by_cases hp : pc = c
          · have hg : Row.get ((pc, Val.na) :: roundRow cols r) c
                = if pc = c then Val.na else Row.get (roundRow cols r) c := rfl
            rw [hg, if_pos hp, if_pos hp]
          · have hg : Row.get ((pc, Val.na) :: roundRow cols r) c
                = if pc = c then Val.na else Row.get (roundRow cols r) c := rfl
            rw [hg, if_neg hp, if_neg hp, ih]

/-- Claim C5 (confirmed).  For a raw feature table (a frame with a
`file_name` identity column) the transform applies its steps in the fixed
order: deduplicate by identity keeping the first occurrence, impute each
numeric column's missing cells with the column mean computed over the rows
remaining after deduplication, round the numeric columns to 4 decimal
digits, and only then fit the `rms_scaled` z-score on the full transformed
`rms_mean` column.  Accordingly every deduplicated row with a missing
numeric cell ends up holding the rounded post-deduplication mean. -/
theorem claim_C5 (df : DF) (hfn : "file_name" ∈ df.cols) :
    transform_features (some df)
      = some (add_scaled_energy
          (roundCols4 (numCols df)
            (fillnaMeanCols (numCols df) (dedupBy df "file_name"))))
    ∧ (∀ c ∈ numCols df,
        colPresent (dedupBy df "file_name") c ≠ [] →
        ∀ i r, (dedupBy df "file_name").rows.get? i = some r →
          c ∈ r.map Prod.fst → Row.get r c = Val.na →
          ∃ r2, (clean_and_tidy df).rows.get? i = some r2
            ∧ Row.get r2 c
              = Val.num (round4 (meanQ (colPresent (dedupBy df "file_name") c))))
    ∧ ("rms_mean" ∈ df.cols →
        (transform_features (some df)).map (fun p => p.2)
          = some (some (standardScale (rmsColumn (clean_and_tidy df))))) := by
  have hds : dedupStep df = dedupBy df "file_name" := by
    unfold dedupStep
    rw [if_pos hfn]
  refine ⟨?_, ?_, ?_⟩
  · show some (add_scaled_energy (clean_and_tidy df)) = _
    unfold clean_and_tidy
    rw [hds]
  · intro c hcnum hcp i r hget hb hna
    have hmean : (fun x => (colMean (dedupStep df) x).map Val.num) c
        = some (Val.num (meanQ (colPresent (dedupBy df "file_name") c))) := by
      show (colMean (dedupStep df) c).map Val.num = _
      rw [hds]
      unfold colMean
      rw [if_neg hcp]
      rfl
    have hrows : (clean_and_tidy df).rows
        = ((dedupStep df).rows.map (fillRow (numCols df)
            (fun x => (colMean (dedupStep df) x).map Val.num))).map
            (roundRow (numCols df)) := rfl
    have hget' : (dedupStep df).rows.get? i = some r := by
      rw [hds]
      exact hget
    refine ⟨roundRow (numCols df) (fillRow (numCols df)
      (fun x => (colMean (dedupStep df) x).map Val.num) r), ?_, ?_⟩
    · rw [hrows, List.get?_map, List.get?_map, hget']
      rfl
    · have hfill := get_fillRow_na_bound (numCols df)
        (fun x => (colMean (dedupStep df) x).map Val.num) r c
        (meanQ (colPresent (dedupBy df "file_name") c)) hcnum hmean hb hna
      rw [get_roundRow, hfill]
      show (if c ∈ numCols df then _ else _) = _
      rw [if_pos hcnum]
  · intro hrms
    have hrms' : "rms_mean" ∈ (clean_and_tidy df).cols := by
      rw [clean_and_tidy_cols]
      exact hrms
    show some ((add_scaled_energy (clean_and_tidy df)).2) = _
    unfold add_scaled_energy
    rw [if_pos hrms']

/-- Claim C5 (witness): the statement at a two-row raw table whose first
row's `rms_mean` is missing. -/
theorem claim_C5_witness :
    ("file_name" ∈ (⟨["file_name", "rms_mean"],
        [[("file_name", Val.str "a"), ("rms_mean", Val.na)],
         [("file_name", Val.str "b"), ("rms_mean", Val.num 1)]]⟩ : DF).cols)
    ∧ ("rms_mean" ∈ numCols ⟨["file_name", "rms_mean"],
        [[("file_name", Val.str "a"), ("rms_mean", Val.na)],
         [("file_name", Val.str "b"), ("rms_mean", Val.num 1)]]⟩)
    ∧ colPresent (dedupBy ⟨["file_name", "rms_mean"],
        [[("file_name", Val.str "a"), ("rms_mean", Val.na)],
         [("file_name", Val.str "b"), ("rms_mean", Val.num 1)]]⟩ "file_name") "rms_mean" ≠ []
    ∧ (∃ r2, (clean_and_tidy ⟨["file_name", "rms_mean"],
          [[("file_name", Val.str "a"), ("rms_mean", Val.na)],
           [("file_name", Val.str "b"), ("rms_mean", Val.num 1)]]⟩).rows.get? 0 = some r2
        ∧ Row.get r2 "rms_mean"
          = Val.num (round4 (meanQ (colPresent (dedupBy ⟨["file_name", "rms_mean"],
              [[("file_name", Val.str "a"), ("rms_mean", Val.na)],
               [("file_name", Val.str "b"), ("rms_mean", Val.num 1)]]⟩ "file_name") "rms_mean"))))
    ∧ (transform_features (some ⟨["file_name", "rms_mean"],
          [[("file_name", Val.str "a"), ("rms_mean", Val.na)],
           [("file_name", Val.str "b"), ("rms_mean", Val.num 1)]]⟩)).map (fun p => p.2)
      = some (some (standardScale (rmsColumn (clean_and_tidy ⟨["file_name", "rms_mean"],
          [[("file_name", Val.str "a"), ("rms_mean", Val.na)],
           [("file_name", Val.str "b"), ("rms_mean", Val.num 1)]]⟩)))) :=
  ⟨by decide, by decide, by decide,
   (claim_C5 ⟨["file_name", "rms_mean"],
      [[("file_name", Val.str "a"), ("rms_mean", Val.na)],
       [("file_name", Val.str "b"), ("rms_mean", Val.num 1)]]⟩ (by decide)).2.1
     "rms_mean" (by decide) (by decide) 0
     [("file_name", Val.str "a"), ("rms_mean", Val.na)]
     (by decide) (by decide) (by decide),
   (claim_C5 ⟨["file_name", "rms_mean"],
      [[("file_name", Val.str "a"), ("rms_mean", Val.na)],
       [("file_name", Val.str "b"), ("rms_mean", Val.num 1)]]⟩ (by decide)).2.2
     (by decide)⟩
